import Mathlib

/-!
Verification of the picmenu help-menu plugin (src/models.py, src/main.py,
src/renderer.py) against its natural-language specification.  The Python
sources are shallowly embedded: pure functions become Lean functions,
Python floats become exact rationals, external library calls
(fuzzywuzzy's partial ratio, pypinyin's transliteration, PIL's text
measurement) become function parameters, and fallible constructs return
`Except`/`Option`.
-/

namespace PicMenu

/-! ## Data model (src/models.py) -/

/-- `CommandInfo` (src/models.py:16-34).  Optional strings model
`Optional[str]` fields. -/
structure CommandInfo where
  name : String
  description : Option String := none
  usage : Option String := none
  aliases : List String := []
  parameters : List String := []
  examples : List String := []
  hidden : Bool := false
  admin_only : Bool := false
deriving Repr, DecidableEq

/-- `PluginInfo` (src/models.py:37-73). -/
structure PluginInfo where
  name : String
  description : Option String := none
  version : Option String := none
  author : Option String := none
  commands : List CommandInfo := []
  hidden : Bool := false
  plugin_type : String := "application"
  homepage : Option String := none
  usage : Option String := none
deriving Repr, DecidableEq

/-- `PluginInfo.get_visible_commands` (src/models.py:69-73): returns all
commands when `show_hidden`, otherwise only those with `hidden = false`.
(The method takes no other argument; in particular it never consults
`admin_only`.) -/
def PluginInfo.get_visible_commands (p : PluginInfo) (show_hidden : Bool := false) :
    List CommandInfo :=
  if show_hidden then p.commands else p.commands.filter (fun cmd => !cmd.hidden)

/-- Python keyword-argument binding for a call
`plugin.get_visible_commands(*args)` (the method declares exactly one
parameter besides `self`, src/models.py:69): zero or one positional
argument binds, two or more raise `TypeError`. -/
def callGetVisibleCommands (p : PluginInfo) (args : List Bool) :
    Except String (List CommandInfo) :=
  match args with
  | [] => Except.ok (p.get_visible_commands false)
  | [sh] => Except.ok (p.get_visible_commands sh)
  | _ => Except.error
      "TypeError: get_visible_commands() takes from 1 to 2 positional arguments but more were given"

/-- `HelpPage` (src/models.py:76-97). -/
structure HelpPage where
  title : String
  plugins : List PluginInfo
  show_hidden : Bool := false
  page_type : String := "main"
deriving Repr, DecidableEq

/-- `HelpPage.visible_plugins` (src/models.py:87-92). -/
def HelpPage.visible_plugins (hp : HelpPage) : List PluginInfo :=
  if hp.show_hidden then hp.plugins else hp.plugins.filter (fun p => !p.hidden)

/-! ## String helpers (Python built-ins used by src/main.py) -/

/-- Python `str.isdigit` restricted to ASCII input: non-empty and every
character a decimal digit. -/
def pyIsDigit (s : String) : Bool :=
  !s.data.isEmpty && s.data.all Char.isDigit

/-- Python `int(...)` on a digit string (value of the decimal numeral). -/
def digitsToNat (s : String) : Nat :=
  s.data.foldl (fun acc c => 10 * acc + (c.toNat - 48)) 0

/-- Python `str.lower`, modelled character-wise with `Char.toLower`
(faithful on ASCII, identity on CJK text). -/
def pyLower (s : String) : String :=
  String.mk (s.data.map Char.toLower)

/-- Python `str(bool)`. -/
def pyStrBool : Bool → String
  | true => "True"
  | false => "False"

/-! ## Fuzzy scoring (src/main.py:100-171)

`fuzz.partial_ratio` (fuzzywuzzy) and `lazy_pinyin` (pypinyin) are
external libraries; they are abstracted as the `ratio` and `pinyin`
fields of a scoring context.  `ratio` returns an integer similarity on
the 0-100 scale; Python float arithmetic on those integers is modelled
exactly over `ℚ`. -/

structure FuzzCtx where
  /-- `fuzz.partial_ratio`, abstracted. -/
  ratio : String → String → Nat
  /-- `"".join(lazy_pinyin(text, style=Style.NORMAL))`, abstracted. -/
  pinyin : String → String
  /-- config `enable_pinyin_search` (src/main.py:46). -/
  enable_pinyin : Bool
  /-- config `fuzzy_search_threshold` (src/main.py:45, default 60). -/
  threshold : Int := 60

/-- `get_pinyin_string` (src/main.py:100-104): empty when pinyin search
is disabled. -/
def FuzzCtx.get_pinyin_string (ctx : FuzzCtx) (text : String) : String :=
  if ctx.enable_pinyin then ctx.pinyin text else ""

/-- The fused raw score of one plugin candidate
(src/main.py:117-133): `max(name_score, pinyin_score, desc_score * 0.7)`
where a missing or empty description scores 0 (Python truthiness of
`plugin.description`). -/
def pluginRawScore (ctx : FuzzCtx) (query : String) (p : PluginInfo) : ℚ :=
  max (ctx.ratio (pyLower query) (pyLower p.name) : ℚ)
    (max
      (if ctx.enable_pinyin && !(ctx.get_pinyin_string (pyLower query) = "") then
        (ctx.ratio (ctx.get_pinyin_string (pyLower query))
          (ctx.get_pinyin_string (pyLower p.name)) : ℚ)
      else 0)
      ((match p.description with
        | some d =>
          if d = "" then (0 : ℚ) else (ctx.ratio (pyLower query) (pyLower d) : ℚ)
        | none => 0) * (7 / 10)))

/-- The fused raw score of one command candidate (src/main.py:152-164):
`max(name_score, desc_score * 0.8)`. -/
def commandRawScore (ctx : FuzzCtx) (query : String) (c : CommandInfo) : ℚ :=
  max (ctx.ratio (pyLower query) (pyLower c.name) : ℚ)
    ((match c.description with
      | some d =>
        if d = "" then (0 : ℚ) else (ctx.ratio (pyLower query) (pyLower d) : ℚ)
      | none => 0) * (4 / 5))

/-! ## Stable descending sort (`results.sort(key=lambda x: x[1], reverse=True)`)

Python's `list.sort` is stable; with `reverse=True` elements of equal
key keep their original relative order.  This is modelled by insertion
sort that places an element strictly before the first already-placed
element of less-or-equal score (the unique stable descending order). -/

/-- Insert into a descending list, before the first entry of
less-or-equal score. -/
def insertDesc {α : Type} (x : α × Int) : List (α × Int) → List (α × Int)
  | [] => [x]
  | y :: ys => if y.2 ≤ x.2 then x :: y :: ys else y :: insertDesc x ys

/-- Stable sort by score, descending. -/
def sortByScoreDesc {α : Type} : List (α × Int) → List (α × Int)
  | [] => []
  | x :: xs => insertDesc x (sortByScoreDesc xs)

/-- The earliest entry of maximal score (ties favour the earlier
element). -/
def firstMaxByScore {α : Type} : List (α × Int) → Option (α × Int)
  | [] => none
  | x :: xs =>
    match firstMaxByScore xs with
    | none => some x
    | some y => if x.2 < y.2 then some y else some x

/-- The per-candidate loop body of `fuzzy_search_plugins`
(src/main.py:117-136): keep a candidate whose raw score reaches the
threshold, paired with `int(final_score)` (truncation; scores are
non-negative, so `Int.floor`). -/
def pluginScoreList (ctx : FuzzCtx) (query : String) (plugins : List PluginInfo) :
    List (PluginInfo × Int) :=
  plugins.filterMap (fun p =>
    let s := pluginRawScore ctx query p
    if s ≥ (ctx.threshold : ℚ) then some (p, ⌊s⌋) else none)

/-- The per-candidate loop body of `fuzzy_search_commands`
(src/main.py:152-167). -/
def commandScoreList (ctx : FuzzCtx) (query : String) (commands : List CommandInfo) :
    List (CommandInfo × Int) :=
  commands.filterMap (fun c =>
    let s := commandRawScore ctx query c
    if s ≥ (ctx.threshold : ℚ) then some (c, ⌊s⌋) else none)

/-- `fuzzy_search_plugins` (src/main.py:106-140). -/
def fuzzy_search_plugins (ctx : FuzzCtx) (query : String) (plugins : List PluginInfo) :
    List (PluginInfo × Int) :=
  if query = "" ∨ plugins = [] then []
  else sortByScoreDesc (pluginScoreList ctx query plugins)

/-- `fuzzy_search_commands` (src/main.py:142-171). -/
def fuzzy_search_commands (ctx : FuzzCtx) (query : String) (commands : List CommandInfo) :
    List (CommandInfo × Int) :=
  if query = "" ∨ commands = [] then []
  else sortByScoreDesc (commandScoreList ctx query commands)

/-- `get_plugin_by_query` (src/main.py:184-204): numeric index, then
first exact case-insensitive name match, then best fuzzy result. -/
def get_plugin_by_query (ctx : FuzzCtx) (query : String) (plugins : List PluginInfo) :
    Option PluginInfo :=
  let n := digitsToNat query
  if pyIsDigit query && decide (1 ≤ n) && decide (n ≤ plugins.length) then
    plugins.get? (n - 1)
  else
    match plugins.find? (fun p => pyLower p.name == pyLower query) with
    | some p => some p
    | none => (fuzzy_search_plugins ctx query plugins).head?.map Prod.fst

/-- `get_command_by_query` (src/main.py:206-226). -/
def get_command_by_query (ctx : FuzzCtx) (query : String) (commands : List CommandInfo) :
    Option CommandInfo :=
  let n := digitsToNat query
  if pyIsDigit query && decide (1 ≤ n) && decide (n ≤ commands.length) then
    commands.get? (n - 1)
  else
    match commands.find? (fun c => pyLower c.name == pyLower query) with
    | some c => some c
    | none => (fuzzy_search_commands ctx query commands).head?.map Prod.fst

/-! ## Text wrapping (src/renderer.py:134-183)

`_calculate_text_size` measures text with the PIL font object; the
width component is abstracted as a function `widthOf`. -/

/-- `_contains_chinese` (src/renderer.py:178-183). -/
def containsChinese (s : String) : Bool :=
  s.data.any (fun c => 0x4e00 ≤ c.toNat && c.toNat ≤ 0x9fff)

/-- The character-wise wrapping loop of `_wrap_text`
(src/renderer.py:142-156), carrying `current_line`.  When the
accumulator is empty both outcomes of the width test set
`current_line = char` without emitting a line, so that case is written
as one branch. -/
def wrapChars (widthOf : String → Nat) (maxW : Nat) : List Char → String → List String
  | [], cur => if cur = "" then [] else [cur]
  | c :: cs, cur =>
    if cur = "" then wrapChars widthOf maxW cs (String.singleton c)
    else if widthOf (cur.push c) ≤ maxW then wrapChars widthOf maxW cs (cur.push c)
    else cur :: wrapChars widthOf maxW cs (String.singleton c)

/-- Python `str.split()` with no separator: maximal runs of
non-whitespace characters. -/
def splitWhitespaceAux : List Char → List Char → List (List Char)
  | [], cur => if cur = [] then [] else [cur.reverse]
  | c :: cs, cur =>
    if c.isWhitespace then
      (if cur = [] then [] else [cur.reverse]) ++ splitWhitespaceAux cs []
    else splitWhitespaceAux cs (c :: cur)

def pySplitWhitespace (s : String) : List String :=
  (splitWhitespaceAux s.data []).map String.mk

/-- The word-wise wrapping loop of `_wrap_text`
(src/renderer.py:158-174): words joined by a single space.  With an
empty accumulator `test_line` is the bare word and both outcomes of
the width test set `current_line = word` without emitting a line, so
that case is written as one branch. -/
def wrapWords (widthOf : String → Nat) (maxW : Nat) : List String → String → List String
  | [], cur => if cur = "" then [] else [cur]
  | w :: ws, cur =>
    if cur = "" then wrapWords widthOf maxW ws w
    else if widthOf (cur ++ " " ++ w) ≤ maxW then wrapWords widthOf maxW ws (cur ++ " " ++ w)
    else cur :: wrapWords widthOf maxW ws w

/-- `_wrap_text` (src/renderer.py:134-176): empty input gives no lines;
text containing a CJK ideograph wraps per character, otherwise per
whitespace-delimited word. -/
def wrap_text (widthOf : String → Nat) (text : String) (maxW : Nat) : List String :=
  if text = "" then []
  else if containsChinese text then wrapChars widthOf maxW text.data ""
  else wrapWords widthOf maxW (pySplitWhitespace text) ""

/-! ## Render configuration (src/models.py:100-163, src/renderer.py:17-35) -/

/-- `ThemeConfig` (src/models.py:100-138). -/
structure ThemeConfig where
  name : String
  background_color : String
  text_color : String
  primary_color : String
  secondary_color : String
  border_color : String
  card_background : String
  header_background : String
deriving Repr, DecidableEq

def ThemeConfig.light_theme : ThemeConfig :=
  ⟨"light", "#FFFFFF", "#333333", "#007ACC", "#666666", "#E0E0E0", "#F8F9FA", "#F0F0F0"⟩

def ThemeConfig.dark_theme : ThemeConfig :=
  ⟨"dark", "#1E1E1E", "#FFFFFF", "#4FC3F7", "#CCCCCC", "#404040", "#2D2D2D", "#252525"⟩

/-- Python `int(...)` on a rational (truncation toward zero). -/
def pyInt (q : ℚ) : Int := if 0 ≤ q then ⌊q⌋ else ⌈q⌉

/-- `RenderConfig` (src/models.py:141-163) with its declared fields and
dataclass defaults. -/
structure RenderConfig where
  width : Int := 800
  font_size : Int := 16
  padding : Int := 20
  card_spacing : Int := 15
  border_radius : Int := 8
  max_plugins_per_page : Int := 12
  title_font_size : Int := 24
  subtitle_font_size : Int := 14
  command_font_size : Int := 14
  theme : ThemeConfig := ThemeConfig.light_theme
deriving Repr, DecidableEq

/-- A successful `RenderConfig(...)` construction followed by
`__post_init__` (src/models.py:159-163), which overwrites the derived
font sizes (`1.5` and `0.875` are exact binary floats). -/
def RenderConfig.make (width font_size : Int) (theme : ThemeConfig)
    (max_plugins_per_page : Int) : RenderConfig :=
  { width := width
    font_size := font_size
    title_font_size := pyInt ((font_size : ℚ) * (3 / 2))
    subtitle_font_size := pyInt ((font_size : ℚ) * (7 / 8))
    command_font_size := pyInt ((font_size : ℚ) * (7 / 8))
    max_plugins_per_page := max_plugins_per_page
    theme := theme }

/-- The parameter names accepted by the `RenderConfig` dataclass
initializer: exactly its declared fields (src/models.py:141-157). -/
def renderConfigParams : List String :=
  ["width", "font_size", "padding", "card_spacing", "border_radius",
   "max_plugins_per_page", "title_font_size", "subtitle_font_size",
   "command_font_size", "theme"]

/-- The keyword-argument names that `_create_render_config` passes to
`RenderConfig(...)` (src/renderer.py:28-35). -/
def createRenderConfigKwargs : List String :=
  ["width", "font_size", "theme", "max_plugins_per_page", "col_count", "col_width"]

/-- The user configuration values read through `config.get` by
`HelpImageRenderer` and the plugin class. -/
structure AstrConfig where
  theme : String := "light"
  image_width : Int := 800
  font_size : Int := 16
  max_plugins_per_page : Int := 10
  col_count : Int := 2
  col_width : Int := 300
deriving Repr, DecidableEq

/-- `_create_render_config` (src/renderer.py:23-35): Python binds the
keyword arguments against the dataclass parameter list first; an
unexpected keyword raises `TypeError` before any `RenderConfig` value
exists.  Only if every keyword were accepted would the shown
construction be evaluated. -/
def create_render_config (cfg : AstrConfig) : Except String RenderConfig :=
  match createRenderConfigKwargs.find? (fun k => !renderConfigParams.contains k) with
  | some k =>
    Except.error ("TypeError: RenderConfig.__init__() got an unexpected keyword argument " ++ k)
  | none =>
    Except.ok (RenderConfig.make cfg.image_width cfg.font_size
      (if cfg.theme = "dark" then ThemeConfig.dark_theme else ThemeConfig.light_theme)
      cfg.max_plugins_per_page)

/-- `HelpImageRenderer.__init__` (src/renderer.py:17-19) evaluates
`_create_render_config` immediately; the renderer instance exists only
if that call returns. -/
def helpImageRendererInit (cfg : AstrConfig) : Except String RenderConfig :=
  create_render_config cfg

/-! ## Main-page and plugin-detail layout (src/renderer.py:185-369) -/

/-- `rows = math.ceil(len(plugins) / cols)` with `cols = 2`
(src/renderer.py:193-194). -/
def mainPageRows (count : Nat) : Int := ⌈(count : ℚ) / 2⌉

/-- `content_height` (src/renderer.py:200): Python integer arithmetic,
negative when there are zero rows. -/
def mainPageContentHeight (rc : RenderConfig) (count : Nat) : Int :=
  mainPageRows count * 120 + (mainPageRows count - 1) * rc.card_spacing

/-- `total_height` (src/renderer.py:199-201): header 80 plus content
plus twice the padding. -/
def mainPageTotalHeight (rc : RenderConfig) (count : Nat) : Int :=
  80 + mainPageContentHeight rc count + rc.padding * 2

/-- A rendered page: canvas dimensions plus the text runs drawn, in
draw order.  Rectangles and coordinates are not modelled. -/
structure PageCanvas where
  width : Int
  height : Int
  texts : List String
deriving Repr, DecidableEq

/-- The canvas and unconditional text draws of `render_main_page`
(src/renderer.py:185-240): the centered title (line 214), the subtitle
`共 N 个插件` (lines 218-223), and one index badge per plugin card
(line 258 via `_draw_plugin_card`).  Each card additionally draws name
and description lines, omitted here. -/
def render_main_page_canvas (rc : RenderConfig) (page : HelpPage) : PageCanvas :=
  let plugins := page.visible_plugins
  { width := rc.width
    height := mainPageTotalHeight rc plugins.length
    texts := [page.title, "共 " ++ toString plugins.length ++ " 个插件"]
      ++ (List.range plugins.length).map (fun i => toString (i + 1)) }

/-- `render_plugin_detail` (src/renderer.py:292-365).  Its first step
(line 299) calls `plugin.get_visible_commands(help_page.show_hidden,
is_admin)` with two positional arguments; when that call raises, no
canvas is produced.  Otherwise the layout of lines 301-360: command
cards of height 80 in two columns, header 120, placeholder text
`该插件暂无可用命令` when the command list is empty. -/
def render_plugin_detail (rc : RenderConfig) (page : HelpPage) (plugin : PluginInfo)
    (is_admin : Bool) : Except String PageCanvas :=
  match callGetVisibleCommands plugin [page.show_hidden, is_admin] with
  | Except.error e => Except.error e
  | Except.ok commands =>
    let rows : Int := if commands = [] then 0 else ⌈(commands.length : ℚ) / 2⌉
    let content : Int := if rows > 0 then rows * 80 + (rows - 1) * rc.card_spacing else 50
    Except.ok
      { width := rc.width
        height := 120 + content + rc.padding * 2
        texts := ["🔧 " ++ plugin.name]
          ++ (if commands = [] then ["该插件暂无可用命令"]
              else (List.range commands.length).map (fun i => toString (i + 1))) }

/-! ## Cache (src/main.py:37-98) -/

/-- `get_cache_key` (src/main.py:67-70) joins the stringified arguments
with `"|"` and returns the MD5 hex digest of the result.  MD5 is a
fixed deterministic function of its input string, so equal contents
give equal keys; the key is modelled by its preimage content. -/
def get_cache_key : List String → String
  | [] => ""
  | [a] => a
  | a :: rest => a ++ "|" ++ get_cache_key rest

/-- The cache key computed by `show_main_page` (src/main.py:263-265):
its second component is `len(plugins)`, the plugin count. -/
def show_main_page_cache_key (plugins : List PluginInfo) (show_hidden : Bool)
    (theme : String) : String :=
  get_cache_key ["main", toString plugins.length, pyStrBool show_hidden, theme]

/-- The in-memory image cache (src/main.py:37-39): a dict from key to
`(image bytes, timestamp)`.  Bytes are modelled as `String`, time as
`ℚ` seconds. -/
structure ImageCache where
  enabled : Bool
  expire : ℚ
  entries : List (String × String × ℚ)
deriving Repr, DecidableEq

def ImageCache.lookup (c : ImageCache) (key : String) : Option (String × ℚ) :=
  (c.entries.find? (fun e => e.1 == key)).map (fun e => e.2)

def ImageCache.erase (c : ImageCache) (key : String) : ImageCache :=
  { c with entries := c.entries.filter (fun e => e.1 != key) }

/-- `get_cached_image` (src/main.py:72-82) evaluated at time `now`:
returns the hit (if any) and the cache state after the read. -/
def get_cached_image (now : ℚ) (c : ImageCache) (key : String) :
    Option String × ImageCache :=
  if !c.enabled then (none, c)
  else
    match c.lookup key with
    | none => (none, c)
    | some (data, ts) =>
      if now - ts > c.expire then (none, c.erase key) else (some data, c)

/-! ## Command-detail layout, modelled from the spec -/

/-- A section of the command-detail page (spec §4.3). -/
inductive CmdSection where
  | title (text : String)
  | byline (text : String)
  | desc (lines : List String)
  | usageBox (text : String)
  | paramList (items : List String)
  | exampleList (items : List String)
deriving Repr, DecidableEq

/-- The fixed display order of the sections (spec §4.3). -/
def CmdSection.rank : CmdSection → Nat
  | .title _ => 0
  | .byline _ => 1
  | .desc _ => 2
  | .usageBox _ => 3
  | .paramList _ => 4
  | .exampleList _ => 5

/-- Modelled from the spec: `HelpImageRenderer.render_command_detail` is
missing from src/renderer.py — src/main.py:386 calls it, but no
definition exists under src/.  Spec §4.3, Command detail: single-column
stacked sections in fixed order — title, owning-plugin byline, wrapped
description, boxed usage string (if present), bulleted parameter list
(if present), bulleted example list (if present); canvas height
accumulates exactly the measured height of each present section,
omitting absent ones entirely.  `measure` abstracts per-section
measured height and `wrap` the description wrapping. -/
def render_command_detail (measure : CmdSection → Nat) (wrap : String → List String)
    (plugin : PluginInfo) (cmd : CommandInfo) : List CmdSection × Nat :=
  let secs : List CmdSection :=
    [CmdSection.title cmd.name, CmdSection.byline plugin.name]
    ++ (match cmd.description with
        | some d => [CmdSection.desc (wrap d)]
        | none => [])
    ++ (match cmd.usage with
        | some u => [CmdSection.usageBox u]
        | none => [])
    ++ (if cmd.parameters = [] then [] else [CmdSection.paramList cmd.parameters])
    ++ (if cmd.examples = [] then [] else [CmdSection.exampleList cmd.examples])
  (secs, (secs.map measure).sum)

/-! ## Concrete instances used by witnesses and counterexamples
(the three mock plugins of src/standalone_test.py:21-96, plus small
scoring contexts) -/

def helpCmd : CommandInfo :=
  { name := "help", description := some "显示帮助信息", usage := some "[插件名] [命令名]" }

def statusCmd : CommandInfo :=
  { name := "status", description := some "查看机器人状态" }

def adminCmd : CommandInfo :=
  { name := "admin", description := some "管理员命令", usage := some "<操作>",
    admin_only := true }

def basicPlugin : PluginInfo :=
  { name := "基础功能", description := some "提供机器人的基础功能和管理命令",
    version := some "1.0.0", author := some "AstrBot",
    commands := [helpCmd, statusCmd, adminCmd] }

def funPlugin : PluginInfo :=
  { name := "娱乐功能", description := some "提供各种娱乐和互动功能",
    version := some "2.1.0", author := some "Community",
    commands := [{ name := "roll", description := some "掷骰子" },
                 { name := "joke", description := some "随机笑话" }] }

def noCmdPlugin : PluginInfo := { name := "空插件" }

/-- A scoring context with threshold 70 exhibiting a raw score of 69.6:
`ratio` scores 87 against the description `dsc` and 10 against
anything else. -/
def roundCtx : FuzzCtx :=
  { ratio := fun _ b => if b = "dsc" then 87 else 10
    pinyin := fun s => s
    enable_pinyin := false
    threshold := 70 }

def roundCmd : CommandInfo := { name := "cmdx", description := some "dsc" }

/-- A scoring context where the commands `aa` and `bb` tie at 80. -/
def tieCtx : FuzzCtx :=
  { ratio := fun _ b => if b = "aa" then 80 else if b = "bb" then 80 else 0
    pinyin := fun s => s
    enable_pinyin := false
    threshold := 60 }

def cmdAA : CommandInfo := { name := "aa" }

def cmdBB : CommandInfo := { name := "bb" }

def rcDefault : RenderConfig := {}

def emptyPage : HelpPage := { title := "📚 插件帮助菜单", plugins := [] }

def onePluginPage : HelpPage := { title := "📚 插件帮助菜单", plugins := [noCmdPlugin] }

def manyPluginsPage : HelpPage :=
  { title := "📚 插件帮助菜单", plugins := List.replicate 21 noCmdPlugin }

def detailPage : HelpPage :=
  { title := "🔧 空插件", plugins := [noCmdPlugin], page_type := "plugin_detail" }

def sampleCache : ImageCache :=
  { enabled := true, expire := 1800, entries := [("k1", "PNG1", 1000)] }

/-! ## Lemmas about the stable descending sort -/

theorem mem_insertDesc {α : Type} (x a : α × Int) (l : List (α × Int)) :
    a ∈ insertDesc x l ↔ a = x ∨ a ∈ l := by
  induction l with
  | nil => simp [insertDesc]
  | cons y ys ih =>
    simp only [insertDesc]
    split
    · simp
    · simp only [List.mem_cons, ih]
      tauto

theorem mem_sortByScoreDesc {α : Type} (a : α × Int) (l : List (α × Int)) :
    a ∈ sortByScoreDesc l ↔ a ∈ l := by
  induction l with
  | nil => simp [sortByScoreDesc]
  | cons x xs ih =>
    simp only [sortByScoreDesc, mem_insertDesc, List.mem_cons, ih]

theorem insertDesc_ne_nil {α : Type} (x : α × Int) (l : List (α × Int)) :
    insertDesc x l ≠ [] := by
  cases l with
  | nil => simp [insertDesc]
  | cons y ys =>
    simp only [insertDesc]
    split <;> simp

theorem sortByScoreDesc_eq_nil {α : Type} (l : List (α × Int)) :
    sortByScoreDesc l = [] ↔ l = [] := by
  cases l with
  | nil => simp [sortByScoreDesc]
  | cons x xs =>
    simp only [sortByScoreDesc]
    exact ⟨fun h => absurd h (insertDesc_ne_nil x _), fun h => by simp at h⟩

theorem head?_insertDesc {α : Type} (x : α × Int) (l : List (α × Int)) :
    (insertDesc x l).head? =
      match l.head? with
      | none => some x
      | some y => if y.2 ≤ x.2 then some x else some y := by
  cases l with
  | nil => simp [insertDesc]
  | cons y ys =>
    simp only [insertDesc, List.head?_cons]
    split <;> simp_all

/-- The head of the stable descending sort is the earliest entry of
maximal score: the tie-breaking behaviour of Python's stable
`sort(reverse=True)`. -/
theorem head?_sortByScoreDesc {α : Type} (l : List (α × Int)) :
    (sortByScoreDesc l).head? = firstMaxByScore l := by
  induction l with
  | nil => simp [sortByScoreDesc, firstMaxByScore]
  | cons x xs ih =>
    simp only [sortByScoreDesc, firstMaxByScore, head?_insertDesc, ih]
    cases h : firstMaxByScore xs with
    | none => simp
    | some y =>
      simp only
      by_cases hle : y.2 ≤ x.2
      · rw [if_pos hle, if_neg (by omega)]
      · rw [if_neg hle, if_pos (by omega)]

theorem firstMaxByScore_mem {α : Type} {l : List (α × Int)} {x : α × Int}
    (h : firstMaxByScore l = some x) : x ∈ l := by
  induction l with
  | nil => simp [firstMaxByScore] at h
  | cons y ys ih =>
    simp only [firstMaxByScore] at h
    cases hys : firstMaxByScore ys with
    | none => rw [hys] at h; simp_all
    | some z =>
      rw [hys] at h
      simp only at h
      split at h
      · exact List.mem_cons_of_mem _ (ih (by rw [hys, ← h]))
      · simp_all

theorem firstMaxByScore_eq_none {α : Type} {l : List (α × Int)} :
    firstMaxByScore l = none ↔ l = [] := by
  cases l with
  | nil => simp [firstMaxByScore]
  | cons x xs =>
    simp only [firstMaxByScore]
    cases firstMaxByScore xs with
    | none => simp
    | some y =>
      simp only
      split <;> simp

theorem firstMaxByScore_le {α : Type} {l : List (α × Int)} {x : α × Int}
    (h : firstMaxByScore l = some x) : ∀ y ∈ l, y.2 ≤ x.2 := by
  induction l generalizing x with
  | nil => simp
  | cons z zs ih =>
    intro y hy
    simp only [firstMaxByScore] at h
    cases hzs : firstMaxByScore zs with
    | none =>
      rw [hzs] at h
      simp only [Option.some.injEq] at h
      subst h
      rcases List.mem_cons.mp hy with rfl | hy2
      · exact le_refl _
      · rw [firstMaxByScore_eq_none.mp hzs] at hy2
        simp at hy2
    | some m =>
      rw [hzs] at h
      simp only at h
      rcases List.mem_cons.mp hy with rfl | hy2
      · split at h
        · next hlt => simp only [Option.some.injEq] at h; subst h; omega
        · simp only [Option.some.injEq] at h; subst h; exact le_refl _
      · have hm := ih hzs y hy2
        split at h
        · simp only [Option.some.injEq] at h; subst h; exact hm
        · next hlt => simp only [Option.some.injEq] at h; subst h; omega

theorem firstMaxByScore_isSome {α : Type} {l : List (α × Int)} (h : l ≠ []) :
    ∃ x, firstMaxByScore l = some x := by
  cases l with
  | nil => exact absurd rfl h
  | cons x xs =>
    simp only [firstMaxByScore]
    cases firstMaxByScore xs with
    | none => exact ⟨x, rfl⟩
    | some y =>
      by_cases hlt : x.2 < y.2
      · exact ⟨y, by simp [hlt]⟩
      · exact ⟨x, by simp [hlt]⟩

/-- The sorted result is descending in the score component. -/
theorem sortByScoreDesc_sorted {α : Type} (l : List (α × Int)) :
    (sortByScoreDesc l).Pairwise (fun a b => b.2 ≤ a.2) := by
  induction l with
  | nil => simp [sortByScoreDesc]
  | cons x xs ih =>
    simp only [sortByScoreDesc]
    generalize hs : sortByScoreDesc xs = s at ih
    clear hs
    induction s with
    | nil => simp [insertDesc]
    | cons y ys ihy =>
      simp only [insertDesc]
      rcases List.pairwise_cons.mp ih with ⟨hy, hys⟩
      split
      · next hle =>
        refine List.pairwise_cons.mpr ⟨?_, ih⟩
        intro b hb
        rcases List.mem_cons.mp hb with rfl | hb2
        · exact hle
        · exact le_trans (hy b hb2) hle
      · next hgt =>
        refine List.pairwise_cons.mpr ⟨?_, ihy hys⟩
        intro b hb
        rcases (mem_insertDesc x b ys).mp hb with rfl | hb2
        · omega
        · exact hy b hb2

/-! ## Characterisation of the score lists -/

theorem mem_pluginScoreList {ctx : FuzzCtx} {query : String} {plugins : List PluginInfo}
    {p : PluginInfo} {s : Int} :
    (p, s) ∈ pluginScoreList ctx query plugins ↔
      p ∈ plugins ∧ pluginRawScore ctx query p ≥ (ctx.threshold : ℚ) ∧
        s = ⌊pluginRawScore ctx query p⌋ := by
  simp only [pluginScoreList, List.mem_filterMap]
  constructor
  · rintro ⟨q, hq, heq⟩
    split at heq
    · next hthr =>
      simp only [Option.some.injEq, Prod.mk.injEq] at heq
      obtain ⟨rfl, rfl⟩ := heq
      exact ⟨hq, hthr, rfl⟩
    · simp at heq
  · rintro ⟨hp, hthr, rfl⟩
    exact ⟨p, hp, by rw [if_pos hthr]⟩

theorem pluginScoreList_eq_nil {ctx : FuzzCtx} {query : String} {plugins : List PluginInfo} :
    pluginScoreList ctx query plugins = [] ↔
      ∀ p ∈ plugins, ¬ pluginRawScore ctx query p ≥ (ctx.threshold : ℚ) := by
  simp only [pluginScoreList, List.filterMap_eq_nil_iff]
  constructor
  · intro h p hp hthr
    have := h p hp
    rw [if_pos hthr] at this
    simp at this
  · intro h p hp
    rw [if_neg (h p hp)]

theorem mem_commandScoreList {ctx : FuzzCtx} {query : String} {commands : List CommandInfo}
    {c : CommandInfo} {s : Int} :
    (c, s) ∈ commandScoreList ctx query commands ↔
      c ∈ commands ∧ commandRawScore ctx query c ≥ (ctx.threshold : ℚ) ∧
        s = ⌊commandRawScore ctx query c⌋ := by
  simp only [commandScoreList, List.mem_filterMap]
  constructor
  · rintro ⟨q, hq, heq⟩
    split at heq
    · next hthr =>
      simp only [Option.some.injEq, Prod.mk.injEq] at heq
      obtain ⟨rfl, rfl⟩ := heq
      exact ⟨hq, hthr, rfl⟩
    · simp at heq
  · rintro ⟨hc, hthr, rfl⟩
    exact ⟨c, hc, by rw [if_pos hthr]⟩

theorem commandScoreList_eq_nil {ctx : FuzzCtx} {query : String} {commands : List CommandInfo} :
    commandScoreList ctx query commands = [] ↔
      ∀ c ∈ commands, ¬ commandRawScore ctx query c ≥ (ctx.threshold : ℚ) := by
  simp only [commandScoreList, List.filterMap_eq_nil_iff]
  constructor
  · intro h c hc hthr
    have := h c hc
    rw [if_pos hthr] at this
    simp at this
  · intro h c hc
    rw [if_neg (h c hc)]

/-! ## Claim C1: resolver precedence -/

/-- Characterisation of `get_plugin_by_query` (src/main.py:184-204),
one conjunct per precedence level. -/
theorem resolverPluginsSpec (ctx : FuzzCtx) (query : String) (plugins : List PluginInfo) :
    (pyIsDigit query = true → 1 ≤ digitsToNat query → digitsToNat query ≤ plugins.length →
      get_plugin_by_query ctx query plugins = plugins.get? (digitsToNat query - 1))
    ∧ (¬(pyIsDigit query = true ∧ 1 ≤ digitsToNat query ∧ digitsToNat query ≤ plugins.length) →
      (∀ p, plugins.find? (fun q => pyLower q.name == pyLower query) = some p →
        get_plugin_by_query ctx query plugins = some p)
      ∧ (plugins.find? (fun q => pyLower q.name == pyLower query) = none →
        ((∀ p ∈ plugins, ¬ pluginRawScore ctx query p ≥ (ctx.threshold : ℚ)) →
          get_plugin_by_query ctx query plugins = none)
        ∧ (query ≠ "" → ∀ p ∈ plugins, pluginRawScore ctx query p ≥ (ctx.threshold : ℚ) →
          ∃ r, get_plugin_by_query ctx query plugins = some r)
        ∧ (∀ p, get_plugin_by_query ctx query plugins = some p →
          p ∈ plugins ∧ pluginRawScore ctx query p ≥ (ctx.threshold : ℚ) ∧
          ∀ q ∈ plugins, pluginRawScore ctx query q ≥ (ctx.threshold : ℚ) →
            ⌊pluginRawScore ctx query q⌋ ≤ ⌊pluginRawScore ctx query p⌋))) := by
  constructor
  · intro hd h1 h2
    simp only [get_plugin_by_query]
    rw [if_pos (by simp [hd, h1, h2])]
  · intro hnot
    have hcond : (pyIsDigit query && decide (1 ≤ digitsToNat query)
        && decide (digitsToNat query ≤ plugins.length)) = false := by
      by_contra hc
      rw [Bool.not_eq_false, Bool.and_eq_true, Bool.and_eq_true] at hc
      exact hnot ⟨hc.1.1, of_decide_eq_true hc.1.2, of_decide_eq_true hc.2⟩
    constructor
    · intro p hp
      simp only [get_plugin_by_query, hcond, Bool.false_eq_true, if_false, hp]
    · intro hfind
      have hres : get_plugin_by_query ctx query plugins =
          (fuzzy_search_plugins ctx query plugins).head?.map Prod.fst := by
        simp only [get_plugin_by_query, hcond, Bool.false_eq_true, if_false, hfind]
      refine ⟨?_, ?_, ?_⟩
      · intro hall
        rw [hres]
        simp only [fuzzy_search_plugins]
        by_cases hq : query = "" ∨ plugins = []
        · rw [if_pos hq]; rfl
        · rw [if_neg hq]
          rw [head?_sortByScoreDesc,
            firstMaxByScore_eq_none.mpr (pluginScoreList_eq_nil.mpr hall)]
          rfl
      · intro hq p hp hthr
        rw [hres]
        simp only [fuzzy_search_plugins]
        have hne : ¬(query = "" ∨ plugins = []) := by
          rintro (h | h)
          · exact hq h
          · subst h; simp at hp
        rw [if_neg hne, head?_sortByScoreDesc]
        have hmem : (p, ⌊pluginRawScore ctx query p⌋) ∈ pluginScoreList ctx query plugins :=
          mem_pluginScoreList.mpr ⟨hp, hthr, rfl⟩
        have hnil : pluginScoreList ctx query plugins ≠ [] := by
          intro h; rw [h] at hmem; simp at hmem
        obtain ⟨x, hx⟩ := firstMaxByScore_isSome hnil
        exact ⟨x.1, by rw [hx]; rfl⟩
      · intro p hp
        rw [hres] at hp
        simp only [fuzzy_search_plugins] at hp
        by_cases hq : query = "" ∨ plugins = []
        · rw [if_pos hq] at hp; simp at hp
        · rw [if_neg hq, head?_sortByScoreDesc] at hp
          cases hx : firstMaxByScore (pluginScoreList ctx query plugins) with
          | none => rw [hx] at hp; simp at hp
          | some x =>
            rw [hx] at hp
            simp only [Option.map_some', Option.some.injEq] at hp
            subst hp
            have hmem := firstMaxByScore_mem hx
            obtain ⟨hx1, hx2, hx3⟩ := mem_pluginScoreList.mp (by
              have : x = (x.1, x.2) := rfl
              rw [this] at hmem; exact hmem)
            refine ⟨hx1, hx2, ?_⟩
            intro q hq2 hthr
            have hqmem : (q, ⌊pluginRawScore ctx query q⌋) ∈ pluginScoreList ctx query plugins :=
              mem_pluginScoreList.mpr ⟨hq2, hthr, rfl⟩
            have := firstMaxByScore_le hx _ hqmem
            simpa [← hx3] using this

/-- Characterisation of `get_command_by_query` (src/main.py:206-226),
one conjunct per precedence level. -/
theorem resolverCommandsSpec (ctx : FuzzCtx) (query : String) (commands : List CommandInfo) :
    (pyIsDigit query = true → 1 ≤ digitsToNat query → digitsToNat query ≤ commands.length →
      get_command_by_query ctx query commands = commands.get? (digitsToNat query - 1))
    ∧ (¬(pyIsDigit query = true ∧ 1 ≤ digitsToNat query ∧ digitsToNat query ≤ commands.length) →
      (∀ p, commands.find? (fun q => pyLower q.name == pyLower query) = some p →
        get_command_by_query ctx query commands = some p)
      ∧ (commands.find? (fun q => pyLower q.name == pyLower query) = none →
        ((∀ p ∈ commands, ¬ commandRawScore ctx query p ≥ (ctx.threshold : ℚ)) →
          get_command_by_query ctx query commands = none)
        ∧ (query ≠ "" → ∀ p ∈ commands, commandRawScore ctx query p ≥ (ctx.threshold : ℚ) →
          ∃ r, get_command_by_query ctx query commands = some r)
        ∧ (∀ p, get_command_by_query ctx query commands = some p →
          p ∈ commands ∧ commandRawScore ctx query p ≥ (ctx.threshold : ℚ) ∧
          ∀ q ∈ commands, commandRawScore ctx query q ≥ (ctx.threshold : ℚ) →
            ⌊commandRawScore ctx query q⌋ ≤ ⌊commandRawScore ctx query p⌋))) := by
  constructor
  · intro hd h1 h2
    simp only [get_command_by_query]
    rw [if_pos (by simp [hd, h1, h2])]
  · intro hnot
    have hcond : (pyIsDigit query && decide (1 ≤ digitsToNat query)
        && decide (digitsToNat query ≤ commands.length)) = false := by
      by_contra hc
      rw [Bool.not_eq_false, Bool.and_eq_true, Bool.and_eq_true] at hc
      exact hnot ⟨hc.1.1, of_decide_eq_true hc.1.2, of_decide_eq_true hc.2⟩
    constructor
    · intro p hp
      simp only [get_command_by_query, hcond, Bool.false_eq_true, if_false, hp]
    · intro hfind
      have hres : get_command_by_query ctx query commands =
          (fuzzy_search_commands ctx query commands).head?.map Prod.fst := by
        simp only [get_command_by_query, hcond, Bool.false_eq_true, if_false, hfind]
      refine ⟨?_, ?_, ?_⟩
      · intro hall
        rw [hres]
        simp only [fuzzy_search_commands]
        by_cases hq : query = "" ∨ commands = []
        · rw [if_pos hq]; rfl
        · rw [if_neg hq]
          rw [head?_sortByScoreDesc,
            firstMaxByScore_eq_none.mpr (commandScoreList_eq_nil.mpr hall)]
          rfl
      · intro hq p hp hthr
        rw [hres]
        simp only [fuzzy_search_commands]
        have hne : ¬(query = "" ∨ commands = []) := by
          rintro (h | h)
          · exact hq h
          · subst h; simp at hp
        rw [if_neg hne, head?_sortByScoreDesc]
        have hmem : (p, ⌊commandRawScore ctx query p⌋) ∈ commandScoreList ctx query commands :=
          mem_commandScoreList.mpr ⟨hp, hthr, rfl⟩
        have hnil : commandScoreList ctx query commands ≠ [] := by
          intro h; rw [h] at hmem; simp at hmem
        obtain ⟨x, hx⟩ := firstMaxByScore_isSome hnil
        exact ⟨x.1, by rw [hx]; rfl⟩
      · intro p hp
        rw [hres] at hp
        simp only [fuzzy_search_commands] at hp
        by_cases hq : query = "" ∨ commands = []
        · rw [if_pos hq] at hp; simp at hp
        · rw [if_neg hq, head?_sortByScoreDesc] at hp
          cases hx : firstMaxByScore (commandScoreList ctx query commands) with
          | none => rw [hx] at hp; simp at hp
          | some x =>
            rw [hx] at hp
            simp only [Option.map_some', Option.some.injEq] at hp
            subst hp
            have hmem := firstMaxByScore_mem hx
            obtain ⟨hx1, hx2, hx3⟩ := mem_commandScoreList.mp (by
              have : x = (x.1, x.2) := rfl
              rw [this] at hmem; exact hmem)
            refine ⟨hx1, hx2, ?_⟩
            intro q hq2 hthr
            have hqmem : (q, ⌊commandRawScore ctx query q⌋) ∈ commandScoreList ctx query commands :=
              mem_commandScoreList.mpr ⟨hq2, hthr, rfl⟩
            have := firstMaxByScore_le hx _ hqmem
            simpa [← hx3] using this

/-- C1: for every query string and every candidate list, resolution
(`get_plugin_by_query` and `get_command_by_query` alike) follows the
stated precedence with the first match winning: (1) a query that is a
decimal numeral denoting a positive integer in range of the candidate
list returns the n-th candidate (1-indexed); (2) otherwise the first
candidate whose name equals the query case-insensitively is returned;
(3) otherwise the result is a fused-fuzzy-scoring candidate at or
above the threshold with maximal (truncated) score, and none when no
candidate reaches the threshold. -/
theorem c1_resolver_precedence (ctx : FuzzCtx) (query : String)
    (plugins : List PluginInfo) (commands : List CommandInfo) :
    ((pyIsDigit query = true → 1 ≤ digitsToNat query → digitsToNat query ≤ plugins.length →
      get_plugin_by_query ctx query plugins = plugins.get? (digitsToNat query - 1))
    ∧ (¬(pyIsDigit query = true ∧ 1 ≤ digitsToNat query ∧ digitsToNat query ≤ plugins.length) →
      (∀ p, plugins.find? (fun q => pyLower q.name == pyLower query) = some p →
        get_plugin_by_query ctx query plugins = some p)
      ∧ (plugins.find? (fun q => pyLower q.name == pyLower query) = none →
        ((∀ p ∈ plugins, ¬ pluginRawScore ctx query p ≥ (ctx.threshold : ℚ)) →
          get_plugin_by_query ctx query plugins = none)
        ∧ (query ≠ "" → ∀ p ∈ plugins, pluginRawScore ctx query p ≥ (ctx.threshold : ℚ) →
          ∃ r, get_plugin_by_query ctx query plugins = some r)
        ∧ (∀ p, get_plugin_by_query ctx query plugins = some p →
          p ∈ plugins ∧ pluginRawScore ctx query p ≥ (ctx.threshold : ℚ) ∧
          ∀ q ∈ plugins, pluginRawScore ctx query q ≥ (ctx.threshold : ℚ) →
            ⌊pluginRawScore ctx query q⌋ ≤ ⌊pluginRawScore ctx query p⌋))))
    ∧ ((pyIsDigit query = true → 1 ≤ digitsToNat query → digitsToNat query ≤ commands.length →
      get_command_by_query ctx query commands = commands.get? (digitsToNat query - 1))
    ∧ (¬(pyIsDigit query = true ∧ 1 ≤ digitsToNat query ∧ digitsToNat query ≤ commands.length) →
      (∀ p, commands.find? (fun q => pyLower q.name == pyLower query) = some p →
        get_command_by_query ctx query commands = some p)
      ∧ (commands.find? (fun q => pyLower q.name == pyLower query) = none →
        ((∀ p ∈ commands, ¬ commandRawScore ctx query p ≥ (ctx.threshold : ℚ)) →
          get_command_by_query ctx query commands = none)
        ∧ (query ≠ "" → ∀ p ∈ commands, commandRawScore ctx query p ≥ (ctx.threshold : ℚ) →
          ∃ r, get_command_by_query ctx query commands = some r)
        ∧ (∀ p, get_command_by_query ctx query commands = some p →
          p ∈ commands ∧ commandRawScore ctx query p ≥ (ctx.threshold : ℚ) ∧
          ∀ q ∈ commands, commandRawScore ctx query q ≥ (ctx.threshold : ℚ) →
            ⌊commandRawScore ctx query q⌋ ≤ ⌊commandRawScore ctx query p⌋)))) :=
  ⟨resolverPluginsSpec ctx query plugins, resolverCommandsSpec ctx query commands⟩

/-- Witness for C1: concrete evaluation at each precedence level.
Candidates `help`/`status`, numeric query `"2"` picks the second
candidate; query `"STATUS"` matches exactly; query `"sttus"` falls to
fuzzy scoring. -/
theorem c1_resolver_precedence_witness :
    pyIsDigit "2" = true ∧ 1 ≤ digitsToNat "2" ∧ digitsToNat "2" ≤ 2 ∧
    get_plugin_by_query
      ⟨fun _ _ => 0, fun s => s, false, 60⟩ "2"
      [⟨"help", none, none, none, [], false, "application", none, none⟩,
       ⟨"status", none, none, none, [], false, "application", none, none⟩] =
      some ⟨"status", none, none, none, [], false, "application", none, none⟩ := by
  refine ⟨by decide, by decide, by decide, ?_⟩
  have h := (c1_resolver_precedence
    ⟨fun _ _ => 0, fun s => s, false, 60⟩ "2"
    [⟨"help", none, none, none, [], false, "application", none, none⟩,
     ⟨"status", none, none, none, [], false, "application", none, none⟩] []).1.1
    (by decide) (by decide) (by decide)
  rw [h]
  rfl

/-! ## Claim C2: wrapping -/

theorem data_push (s : String) (c : Char) : (s.push c).data = s.data ++ [c] := rfl

theorem data_singleton (c : Char) : (String.singleton c).data = [c] := rfl

theorem length_singleton (c : Char) : (String.singleton c).length = 1 := rfl

theorem wrapChars_data (widthOf : String → Nat) (maxW : Nat) :
    ∀ (cs : List Char) (cur : String),
      ((wrapChars widthOf maxW cs cur).map String.data).flatten = cur.data ++ cs := by
  intro cs
  induction cs with
  | nil =>
    intro cur
    by_cases h : cur = ""
    · subst h; simp [wrapChars]
    · simp [wrapChars, h]
  | cons c cs ih =>
    intro cur
    by_cases h : cur = ""
    · subst h
      rw [wrapChars, if_pos rfl, ih, data_singleton]
      rfl
    · simp only [wrapChars, if_neg h]
      split
      · rw [ih, data_push]
        simp
      · simp only [List.map_cons, List.flatten_cons]
        rw [ih, data_singleton]
        simp

theorem wrapChars_width (widthOf : String → Nat) (maxW : Nat) :
    ∀ (cs : List Char) (cur : String),
      (cur = "" ∨ widthOf cur ≤ maxW ∨ cur.length = 1) →
      ∀ line ∈ wrapChars widthOf maxW cs cur,
        widthOf line ≤ maxW ∨ line.length = 1 := by
  intro cs
  induction cs with
  | nil =>
    intro cur hcur line hline
    by_cases h : cur = ""
    · simp [wrapChars, h] at hline
    · simp only [wrapChars, if_neg h, List.mem_singleton] at hline
      subst hline
      rcases hcur with h1 | h2 | h3
      · exact absurd h1 h
      · exact Or.inl h2
      · exact Or.inr h3
  | cons c cs ih =>
    intro cur hcur line hline
    by_cases h : cur = ""
    · rw [wrapChars, if_pos h] at hline
      exact ih _ (Or.inr (Or.inr (length_singleton c))) line hline
    · rw [wrapChars, if_neg h] at hline
      split at hline
      · next hle => exact ih _ (Or.inr (Or.inl hle)) line hline
      · rw [List.mem_cons] at hline
        rcases hline with hl | hl
        · subst hl
          rcases hcur with h1 | h2 | h3
          · exact absurd h1 h
          · exact Or.inl h2
          · exact Or.inr h3
        · exact ih _ (Or.inr (Or.inr (length_singleton c))) line hl

theorem wrapWords_width (widthOf : String → Nat) (maxW : Nat) (P : String → Prop) :
    ∀ (ws : List String) (cur : String),
      (∀ w ∈ ws, P w) →
      (cur = "" ∨ widthOf cur ≤ maxW ∨ P cur) →
      ∀ line ∈ wrapWords widthOf maxW ws cur, widthOf line ≤ maxW ∨ P line := by
  intro ws
  induction ws with
  | nil =>
    intro cur _ hcur line hline
    by_cases h : cur = ""
    · simp [wrapWords, h] at hline
    · simp only [wrapWords, if_neg h, List.mem_singleton] at hline
      subst hline
      rcases hcur with h1 | h2 | h3
      · exact absurd h1 h
      · exact Or.inl h2
      · exact Or.inr h3
  | cons w ws ih =>
    intro cur hws hcur line hline
    have hws2 : ∀ v ∈ ws, P v := fun v hv => hws v (List.mem_cons_of_mem _ hv)
    have hPw : P w := hws w (List.mem_cons_self w ws)
    by_cases h : cur = ""
    · rw [wrapWords, if_pos h] at hline
      exact ih _ hws2 (Or.inr (Or.inr hPw)) line hline
    · rw [wrapWords, if_neg h] at hline
      split at hline
      · next hle => exact ih _ hws2 (Or.inr (Or.inl hle)) line hline
      · rw [List.mem_cons] at hline
        rcases hline with hl | hl
        · subst hl
          rcases hcur with h1 | h2 | h3
          · exact absurd h1 h
          · exact Or.inl h2
          · exact Or.inr h3
        · exact ih _ hws2 (Or.inr (Or.inr hPw)) line hl

theorem data_append (s t : String) : (s ++ t).data = s.data ++ t.data := rfl

theorem wrapWords_content (widthOf : String → Nat) (maxW : Nat) :
    ∀ (ws : List String) (cur : String),
      ((wrapWords widthOf maxW ws cur).map String.data).flatten.filter
          (fun c => !c.isWhitespace)
        = cur.data.filter (fun c => !c.isWhitespace)
          ++ ((ws.map String.data).flatten).filter (fun c => !c.isWhitespace) := by
  intro ws
  induction ws with
  | nil =>
    intro cur
    by_cases h : cur = ""
    · subst h; simp [wrapWords]
    · simp [wrapWords, h]
  | cons w ws ih =>
    intro cur
    by_cases h : cur = ""
    · subst h
      rw [wrapWords, if_pos rfl, ih]
      simp [List.filter_append]
    · rw [wrapWords, if_neg h]
      split
      · rw [ih]
        simp only [data_append]
        simp [List.filter_append]
      · simp only [List.map_cons, List.flatten_cons, List.filter_append]
        rw [ih]

theorem splitWhitespaceAux_flatten :
    ∀ (cs : List Char) (cur : List Char),
      (splitWhitespaceAux cs cur).flatten
        = cur.reverse ++ cs.filter (fun c => !c.isWhitespace) := by
  intro cs
  induction cs with
  | nil =>
    intro cur
    by_cases h : cur = [] <;> simp [splitWhitespaceAux, h]
  | cons c cs ih =>
    intro cur
    simp only [splitWhitespaceAux]
    split
    · next hws =>
      by_cases h : cur = []
      · simp [h, ih, List.filter_cons, hws]
      · simp [h, ih, List.filter_cons, hws]
    · next hws =>
      rw [ih]
      simp only [Bool.not_eq_true] at hws
      simp [List.filter_cons, hws]

theorem pySplitWhitespace_flatten (s : String) :
    ((pySplitWhitespace s).map String.data).flatten
      = s.data.filter (fun c => !c.isWhitespace) := by
  simp only [pySplitWhitespace, List.map_map]
  have h : (String.data ∘ String.mk) = id := rfl
  rw [h, List.map_id, splitWhitespaceAux_flatten]
  simp

/-- C2: for every width measure, input string and maximum width, every
line produced by `_wrap_text` either measures at most `max_width` or is
a single character / a single whitespace-delimited word of the input
(an over-wide unit alone on its own line, never split); and the
concatenation of the lines contains exactly the non-whitespace
characters of the input, in order. -/
theorem c2_wrap_correctness (widthOf : String → Nat) (text : String) (maxW : Nat) :
    (∀ line ∈ wrap_text widthOf text maxW,
      widthOf line ≤ maxW ∨ line.length = 1 ∨ line ∈ pySplitWhitespace text)
    ∧ ((wrap_text widthOf text maxW).map String.data).flatten.filter
          (fun c => !c.isWhitespace)
        = text.data.filter (fun c => !c.isWhitespace) := by
  constructor
  · intro line hline
    simp only [wrap_text] at hline
    split at hline
    · simp at hline
    · split at hline
      · rcases wrapChars_width widthOf maxW text.data "" (Or.inl rfl) line hline with h | h
        · exact Or.inl h
        · exact Or.inr (Or.inl h)
      · rcases wrapWords_width widthOf maxW (· ∈ pySplitWhitespace text)
          (pySplitWhitespace text) "" (fun _ hw => hw) (Or.inl rfl) line hline with h | h
        · exact Or.inl h
        · exact Or.inr (Or.inr h)
  · simp only [wrap_text]
    split
    · next h => subst h; simp
    · split
      · rw [wrapChars_data]
        simp
      · rw [wrapWords_content, pySplitWhitespace_flatten]
        simp [List.filter_filter]

/-- Witness for C2: wrapping `"hello world picmenu"` at width 11 with
character count as the measure. -/
theorem c2_wrap_correctness_witness :
    (∀ line ∈ wrap_text String.length "hello world picmenu" 11,
      String.length line ≤ 11 ∨ line.length = 1 ∨
        line ∈ pySplitWhitespace "hello world picmenu")
    ∧ ((wrap_text String.length "hello world picmenu" 11).map String.data).flatten.filter
          (fun c => !c.isWhitespace)
        = ("hello world picmenu").data.filter (fun c => !c.isWhitespace) :=
  c2_wrap_correctness String.length "hello world picmenu" 11

/-! ## Claim C3: fused scoring, rounding and tie-breaking -/

/-- C3 counterexample: with threshold 70, the command `cmdx` has fused
raw score `max 10 (87 × 0.8) = 69.6`, whose integer rounding is 70 — at
the threshold — yet `fuzzy_search_commands` excludes it: the threshold
test compares the unrounded score, and the integer stored for
comparison is the truncation 69, not the rounding 70. -/
theorem roundCmd_raw_score : commandRawScore roundCtx "q" roundCmd = 348 / 5 := by
  have h1 : roundCtx.ratio (pyLower "q") (pyLower roundCmd.name) = 10 := by decide
  have h2 : roundCtx.ratio (pyLower "q") (pyLower "dsc") = 87 := by decide
  simp only [commandRawScore, show roundCmd.description = some "dsc" from rfl,
    h1, h2]
  rw [if_neg (show ¬("dsc" = "") by decide)]
  rw [max_eq_right (by norm_num)]
  norm_num

theorem c3_counterexample :
    fuzzy_search_commands roundCtx "q" [roundCmd] = []
    ∧ commandRawScore roundCtx "q" roundCmd = 348 / 5
    ∧ round (commandRawScore roundCtx "q" roundCmd) = 70
    ∧ ⌊commandRawScore roundCtx "q" roundCmd⌋ = 69
    ∧ roundCtx.threshold = 70 := by
  have hthr : ¬ commandRawScore roundCtx "q" roundCmd ≥ ((roundCtx.threshold : Int) : ℚ) := by
    rw [roundCmd_raw_score, show roundCtx.threshold = 70 from rfl]
    norm_num
  refine ⟨?_, roundCmd_raw_score, ?_, ?_, rfl⟩
  · rw [fuzzy_search_commands, if_neg (by decide)]
    simp only [commandScoreList, List.filterMap_cons, List.filterMap_nil]
    rw [if_neg hthr]
    rfl
  · rw [roundCmd_raw_score, round_eq]
    rw [show (348 / 5 + 1 / 2 : ℚ) = 701 / 10 by norm_num]
    rw [Int.floor_eq_iff]
    constructor <;> norm_num
  · rw [roundCmd_raw_score, Int.floor_eq_iff]
    constructor <;> norm_num

/-- C3 amended: for every plugin candidate the fused raw score is
`max(name, phonetic, 0.7 × description)` and for every command
candidate `max(name, 0.8 × description)`; the threshold test compares
the *unrounded* raw score with the threshold, the integer score stored
and compared between candidates is the *truncation* of the raw score,
and ties between equal integer scores are resolved in favour of the
candidate earliest in the original order (the head of the result is the
earliest entry of maximal integer score). -/
theorem c3_scoring_order (ctx : FuzzCtx) (query : String) :
    (∀ (plugins : List PluginInfo) (e : PluginInfo × Int),
      e ∈ fuzzy_search_plugins ctx query plugins →
        e.1 ∈ plugins ∧ pluginRawScore ctx query e.1 ≥ (ctx.threshold : ℚ) ∧
          e.2 = ⌊pluginRawScore ctx query e.1⌋)
    ∧ (∀ (plugins : List PluginInfo) (p : PluginInfo), query ≠ "" → p ∈ plugins →
      pluginRawScore ctx query p ≥ (ctx.threshold : ℚ) →
        (p, ⌊pluginRawScore ctx query p⌋) ∈ fuzzy_search_plugins ctx query plugins)
    ∧ (∀ plugins : List PluginInfo, query ≠ "" →
      (fuzzy_search_plugins ctx query plugins).head?
        = firstMaxByScore (pluginScoreList ctx query plugins))
    ∧ (∀ plugins : List PluginInfo,
      (fuzzy_search_plugins ctx query plugins).Pairwise (fun a b => b.2 ≤ a.2))
    ∧ (∀ (commands : List CommandInfo) (e : CommandInfo × Int),
      e ∈ fuzzy_search_commands ctx query commands →
        e.1 ∈ commands ∧ commandRawScore ctx query e.1 ≥ (ctx.threshold : ℚ) ∧
          e.2 = ⌊commandRawScore ctx query e.1⌋)
    ∧ (∀ (commands : List CommandInfo) (c : CommandInfo), query ≠ "" → c ∈ commands →
      commandRawScore ctx query c ≥ (ctx.threshold : ℚ) →
        (c, ⌊commandRawScore ctx query c⌋) ∈ fuzzy_search_commands ctx query commands)
    ∧ (∀ commands : List CommandInfo, query ≠ "" →
      (fuzzy_search_commands ctx query commands).head?
        = firstMaxByScore (commandScoreList ctx query commands))
    ∧ (∀ commands : List CommandInfo,
      (fuzzy_search_commands ctx query commands).Pairwise (fun a b => b.2 ≤ a.2)) := by
  refine ⟨?_, ?_, ?_, ?_, ?_, ?_, ?_, ?_⟩
  · intro plugins e he
    simp only [fuzzy_search_plugins] at he
    split at he
    · simp at he
    · obtain ⟨p, s⟩ := e
      exact mem_pluginScoreList.mp ((mem_sortByScoreDesc _ _).mp he)
  · intro plugins p hq hp hthr
    simp only [fuzzy_search_plugins]
    rw [if_neg (by rintro (h | h); exact hq h; subst h; simp at hp)]
    exact (mem_sortByScoreDesc _ _).mpr (mem_pluginScoreList.mpr ⟨hp, hthr, rfl⟩)
  · intro plugins hq
    simp only [fuzzy_search_plugins]
    by_cases hps : plugins = []
    · subst hps
      rw [if_pos (Or.inr rfl)]
      simp [pluginScoreList, firstMaxByScore]
    · rw [if_neg (by rintro (h | h); exact hq h; exact hps h)]
      exact head?_sortByScoreDesc _
  · intro plugins
    simp only [fuzzy_search_plugins]
    split
    · exact List.Pairwise.nil
    · exact sortByScoreDesc_sorted _
  · intro commands e he
    simp only [fuzzy_search_commands] at he
    split at he
    · simp at he
    · obtain ⟨c, s⟩ := e
      exact mem_commandScoreList.mp ((mem_sortByScoreDesc _ _).mp he)
  · intro commands c hq hc hthr
    simp only [fuzzy_search_commands]
    rw [if_neg (by rintro (h | h); exact hq h; subst h; simp at hc)]
    exact (mem_sortByScoreDesc _ _).mpr (mem_commandScoreList.mpr ⟨hc, hthr, rfl⟩)
  · intro commands hq
    simp only [fuzzy_search_commands]
    by_cases hcs : commands = []
    · subst hcs
      rw [if_pos (Or.inr rfl)]
      simp [commandScoreList, firstMaxByScore]
    · rw [if_neg (by rintro (h | h); exact hq h; exact hcs h)]
      exact head?_sortByScoreDesc _
  · intro commands
    simp only [fuzzy_search_commands]
    split
    · exact List.Pairwise.nil
    · exact sortByScoreDesc_sorted _

theorem cmdAA_raw_score : commandRawScore tieCtx "x" cmdAA = 80 := by
  have h1 : tieCtx.ratio (pyLower "x") (pyLower cmdAA.name) = 80 := by decide
  simp only [commandRawScore, show cmdAA.description = none from rfl, h1]
  norm_num

theorem cmdBB_raw_score : commandRawScore tieCtx "x" cmdBB = 80 := by
  have h1 : tieCtx.ratio (pyLower "x") (pyLower cmdBB.name) = 80 := by decide
  simp only [commandRawScore, show cmdBB.description = none from rfl, h1]
  norm_num

theorem tie_score_list :
    commandScoreList tieCtx "x" [cmdAA, cmdBB] = [(cmdAA, 80), (cmdBB, 80)] := by
  have h80 : ((80 : ℚ) ≥ ((tieCtx.threshold : Int) : ℚ)) := by
    rw [show tieCtx.threshold = 60 from rfl]
    norm_num
  have hfl : ⌊(80 : ℚ)⌋ = 80 := by
    rw [show (80 : ℚ) = ((80 : Int) : ℚ) by norm_num, Int.floor_intCast]
  simp only [commandScoreList, List.filterMap_cons, List.filterMap_nil,
    cmdAA_raw_score, cmdBB_raw_score]
  rw [if_pos h80, if_pos h80, hfl]

/-- Witness for C3 (amended): commands `aa` and `bb` both score 80, the
tie resolves to `aa`, the earlier candidate, and `bb` still appears in
the result with its truncated score. -/
theorem c3_scoring_order_witness :
    (fuzzy_search_commands tieCtx "x" [cmdAA, cmdBB]).head?
        = firstMaxByScore (commandScoreList tieCtx "x" [cmdAA, cmdBB])
    ∧ firstMaxByScore (commandScoreList tieCtx "x" [cmdAA, cmdBB]) = some (cmdAA, 80)
    ∧ (cmdBB, ⌊commandRawScore tieCtx "x" cmdBB⌋)
        ∈ fuzzy_search_commands tieCtx "x" [cmdAA, cmdBB] := by
  refine ⟨(c3_scoring_order tieCtx "x").2.2.2.2.2.2.1 [cmdAA, cmdBB] (by decide),
    ?_,
    (c3_scoring_order tieCtx "x").2.2.2.2.2.1 [cmdAA, cmdBB] cmdBB (by decide)
      (by decide) ?_⟩
  · rw [tie_score_list]
    simp [firstMaxByScore]
  · rw [cmdBB_raw_score, show tieCtx.threshold = 60 from rfl]
    norm_num

/-! ## Claim C4: admin-only filtering -/

/-- C4 (code bug, evaluated at the failing input): rendering the plugin
`基础功能` for a non-privileged user raises `TypeError` — the renderer
passes a second `is_admin` argument that `get_visible_commands` does
not accept — and `get_visible_commands` itself never filters on
`admin_only`: the admin-only command `admin` is in its result for a
non-privileged (`show_hidden = false`) view. -/
theorem c4_admin_not_filtered :
    callGetVisibleCommands basicPlugin [false, false]
      = Except.error "TypeError: get_visible_commands() takes from 1 to 2 positional arguments but more were given"
    ∧ adminCmd ∈ basicPlugin.get_visible_commands false
    ∧ adminCmd.admin_only = true := by
  refine ⟨rfl, by decide, rfl⟩

/-! ## Claim C5: renderer construction always fails -/

/-- C5: for every configuration value, constructing `HelpImageRenderer`
raises `TypeError`: `_create_render_config` passes the keyword
arguments `col_count` and `col_width`, neither of which is a declared
parameter of the `RenderConfig` dataclass, so no renderer instance is
ever obtained. -/
theorem c5_renderer_init_type_error (cfg : AstrConfig) :
    helpImageRendererInit cfg
      = Except.error "TypeError: RenderConfig.__init__() got an unexpected keyword argument col_count"
    ∧ "col_count" ∈ createRenderConfigKwargs
    ∧ "col_width" ∈ createRenderConfigKwargs
    ∧ "col_count" ∉ renderConfigParams
    ∧ "col_width" ∉ renderConfigParams :=
  ⟨rfl, by decide, by decide, by decide, by decide⟩

/-! ## Claim C6: cache key fingerprint -/

/-- C6 counterexample: two different selected plugin lists of the same
length produce the identical main-page cache key: changing a selected
plugin name does not change the key, because the fingerprint contains
only the plugin count. -/
theorem c6_counterexample :
    show_main_page_cache_key [basicPlugin, funPlugin] false "light"
      = show_main_page_cache_key [noCmdPlugin, noCmdPlugin] false "light"
    ∧ basicPlugin.name ≠ noCmdPlugin.name :=
  ⟨rfl, by decide⟩

/-- C6 amended: the main-page cache key is a deterministic fingerprint
of `(page_kind, plugin COUNT, show_hidden_flag, theme_name)` — the
joined content `main|N|flag|theme` — so identical inputs give identical
keys, and any two plugin lists of equal length give the identical key
regardless of the selected names. -/
theorem c6_amended_fingerprint (ps qs : List PluginInfo) (sh : Bool) (t : String)
    (h : ps.length = qs.length) :
    show_main_page_cache_key ps sh t = show_main_page_cache_key qs sh t
    ∧ show_main_page_cache_key ps sh t
        = "main" ++ "|" ++ (toString ps.length ++ "|" ++ (pyStrBool sh ++ "|" ++ t)) := by
  constructor
  · simp only [show_main_page_cache_key, h]
  · rfl

/-- Witness for C6 (amended). -/
theorem c6_amended_fingerprint_witness :
    show_main_page_cache_key [basicPlugin, funPlugin] true "dark"
      = show_main_page_cache_key [noCmdPlugin, noCmdPlugin] true "dark"
    ∧ show_main_page_cache_key [basicPlugin, funPlugin] true "dark" = "main|2|True|dark" := by
  have h := c6_amended_fingerprint [basicPlugin, funPlugin] [noCmdPlugin, noCmdPlugin]
    true "dark" (by decide)
  exact ⟨h.1, by decide⟩

/-! ## Claim C7: main-page canvas height -/

theorem mainPageRows_eq (count : Nat) :
    mainPageRows count = (((count + 1) / 2 : Nat) : Int) := by
  unfold mainPageRows
  rcases Nat.even_or_odd count with ⟨k, hk⟩ | ⟨k, hk⟩
  · subst hk
    rw [show ((k + k : ℕ) : ℚ) / 2 = (k : ℚ) by push_cast; ring]
    rw [Int.ceil_natCast]
    rw [show (k + k + 1) / 2 = k by omega]
  · subst hk
    rw [show ((2 * k + 1 : ℕ) : ℚ) / 2 = 1 / 2 + (k : ℕ) by push_cast; ring]
    rw [Int.ceil_add_nat]
    rw [show ⌈(1 / 2 : ℚ)⌉ = 1 by rw [Int.ceil_eq_iff]; norm_num]
    rw [show (2 * k + 1 + 1) / 2 = k + 1 by omega]
    push_cast
    ring

/-- C7 counterexample: with the default configuration (card spacing 15,
padding 20) and two visible plugins — one row — `render_main_page`
computes total height `80 + 1×120 + 0×15 + 2×20 = 240`, while the
claimed formula `header + rows × (card height + spacing) + padding`
gives 235 (or 255 with the padding counted twice): the code multiplies
the spacing by `rows − 1` and adds the padding twice. -/
theorem c7_counterexample :
    mainPageTotalHeight rcDefault 2 = 240
    ∧ (240 : Int) ≠ 80 + mainPageRows 2 * (120 + 15) + 20
    ∧ (240 : Int) ≠ 80 + mainPageRows 2 * (120 + 15) + 2 * 20 := by
  have h2 : mainPageRows 2 = 1 := by
    rw [mainPageRows_eq]
    decide
  refine ⟨?_, ?_, ?_⟩
  · rw [mainPageTotalHeight, mainPageContentHeight, h2]
    rfl
  · rw [h2]; decide
  · rw [h2]; decide

/-- C7 amended: the main-listing canvas height equals the header block
(80) plus `ceil(count/2)` rows times the card height (120), plus
`rows − 1` times the inter-card spacing, plus twice the padding. -/
theorem c7_amended_height (rc : RenderConfig) (count : Nat) :
    mainPageTotalHeight rc count
      = 80 + (((count + 1) / 2 : Nat) : Int) * 120
        + ((((count + 1) / 2 : Nat) : Int) - 1) * rc.card_spacing
        + 2 * rc.padding := by
  unfold mainPageTotalHeight mainPageContentHeight
  rw [mainPageRows_eq]
  ring

/-! ## Claim C8: command-detail layout (spec-modelled) -/

/-- C8 (spec-modelled: `render_command_detail` is absent from
src/renderer.py, only its caller src/main.py:386 exists): for every
measure, wrapper, plugin and resolved command, the rendered sections
appear in the fixed order title, owning-plugin byline, wrapped
description, boxed usage, bulleted parameters, bulleted examples; each
absent optional section is omitted entirely; and the canvas height is
the sum of the measured heights of exactly the present sections. -/
theorem c8_command_detail_layout (measure : CmdSection → Nat)
    (wrap : String → List String) (plugin : PluginInfo) (cmd : CommandInfo) :
    ((render_command_detail measure wrap plugin cmd).1.map CmdSection.rank).Pairwise (· < ·)
    ∧ (render_command_detail measure wrap plugin cmd).1.head?
        = some (CmdSection.title cmd.name)
    ∧ ((∃ l, CmdSection.desc l ∈ (render_command_detail measure wrap plugin cmd).1)
        ↔ cmd.description.isSome)
    ∧ ((∃ u, CmdSection.usageBox u ∈ (render_command_detail measure wrap plugin cmd).1)
        ↔ cmd.usage.isSome)
    ∧ ((∃ l, CmdSection.paramList l ∈ (render_command_detail measure wrap plugin cmd).1)
        ↔ cmd.parameters ≠ [])
    ∧ ((∃ l, CmdSection.exampleList l ∈ (render_command_detail measure wrap plugin cmd).1)
        ↔ cmd.examples ≠ [])
    ∧ (render_command_detail measure wrap plugin cmd).2
        = measure (CmdSection.title cmd.name) + measure (CmdSection.byline plugin.name)
          + (match cmd.description with
             | some d => measure (CmdSection.desc (wrap d))
             | none => 0)
          + (match cmd.usage with
             | some u => measure (CmdSection.usageBox u)
             | none => 0)
          + (if cmd.parameters = [] then 0 else measure (CmdSection.paramList cmd.parameters))
          + (if cmd.examples = [] then 0
             else measure (CmdSection.exampleList cmd.examples)) := by
  obtain ⟨nm, dsc, usg, als, prs, exs, hid, adm⟩ := cmd
  cases dsc <;> cases usg <;> by_cases hp : prs = [] <;> by_cases he : exs = [] <;>
    simp_all [render_command_detail, CmdSection.rank] <;> omega

/-! ## Claim C9: layout non-degeneracy -/

/-- C9 (code bug, evaluated at the failing input): the plugin-detail
renderer never reaches its placeholder layout — its first step raises
`TypeError` (the two-argument `get_visible_commands` call) — while the
main-page layout is non-degenerate for 0, 1 and 21 candidates (positive
canvas, non-empty draw list) but draws no dedicated placeholder for
zero candidates. -/
theorem c9_layout_nondegeneracy :
    render_plugin_detail rcDefault detailPage noCmdPlugin false
      = Except.error "TypeError: get_visible_commands() takes from 1 to 2 positional arguments but more were given"
    ∧ (render_main_page_canvas rcDefault emptyPage).width = 800
    ∧ (render_main_page_canvas rcDefault emptyPage).height = 105
    ∧ (render_main_page_canvas rcDefault emptyPage).texts
        = ["📚 插件帮助菜单", "共 0 个插件"]
    ∧ "该插件暂无可用命令" ∉ (render_main_page_canvas rcDefault emptyPage).texts
    ∧ 0 < (render_main_page_canvas rcDefault onePluginPage).width
    ∧ (render_main_page_canvas rcDefault onePluginPage).height = 240
    ∧ (render_main_page_canvas rcDefault onePluginPage).texts ≠ []
    ∧ 0 < (render_main_page_canvas rcDefault manyPluginsPage).width
    ∧ (render_main_page_canvas rcDefault manyPluginsPage).height = 1590
    ∧ (render_main_page_canvas rcDefault manyPluginsPage).texts ≠ [] := by
  have h0 : mainPageRows 0 = 0 := by rw [mainPageRows_eq]; decide
  have h1 : mainPageRows 1 = 1 := by rw [mainPageRows_eq]; decide
  have h21 : mainPageRows 21 = 11 := by rw [mainPageRows_eq]; decide
  have hv0 : emptyPage.visible_plugins.length = 0 := by decide
  have hv1 : onePluginPage.visible_plugins.length = 1 := by decide
  have hv21 : manyPluginsPage.visible_plugins.length = 21 := by decide
  refine ⟨rfl, rfl, ?_, by decide, by decide, by decide, ?_, by decide, by decide, ?_,
    by decide⟩
  · show mainPageTotalHeight rcDefault emptyPage.visible_plugins.length = 105
    rw [hv0, mainPageTotalHeight, mainPageContentHeight, h0]
    decide
  · show mainPageTotalHeight rcDefault onePluginPage.visible_plugins.length = 240
    rw [hv1, mainPageTotalHeight, mainPageContentHeight, h1]
    decide
  · show mainPageTotalHeight rcDefault manyPluginsPage.visible_plugins.length = 1590
    rw [hv21, mainPageTotalHeight, mainPageContentHeight, h21]
    decide

/-! ## Claim C10: cache TTL on read -/

/-- C10: on a cache read with the cache enabled, an entry whose age
exceeds the configured expiry is never returned — the read reports a
miss and the entry is removed — while an entry within the expiry
(age ≤ expire) is returned unchanged, with the cache untouched. -/
theorem c10_cache_ttl (now : ℚ) (c : ImageCache) (key data : String) (ts : ℚ)
    (henabled : c.enabled = true) (hlook : c.lookup key = some (data, ts)) :
    (now - ts > c.expire → get_cached_image now c key = (none, c.erase key))
    ∧ (now - ts ≤ c.expire → get_cached_image now c key = (some data, c)) := by
  have hbase : get_cached_image now c key
      = if now - ts > c.expire then (none, c.erase key) else (some data, c) := by
    unfold get_cached_image
    rw [henabled, hlook]
    rfl
  constructor
  · intro h
    rw [hbase, if_pos h]
  · intro h
    rw [hbase, if_neg (not_lt.mpr h)]

/-- Witness for C10: a cache with a 1800-second expiry and an entry
stamped at time 1000 misses (and drops the entry) when read at time
3000, and hits unchanged when read at time 2500. -/
theorem c10_cache_ttl_witness :
    get_cached_image 3000 sampleCache "k1" = (none, sampleCache.erase "k1")
    ∧ get_cached_image 2500 sampleCache "k1" = (some "PNG1", sampleCache) := by
  constructor
  · exact (c10_cache_ttl 3000 sampleCache "k1" "PNG1" 1000 rfl rfl).1 (by norm_num [sampleCache])
  · exact (c10_cache_ttl 2500 sampleCache "k1" "PNG1" 1000 rfl rfl).2 (by norm_num [sampleCache])

end PicMenu
